import Mathlib

/-!
# Verification of the redis-bridge plugin (openclaw repository)

Shallow embedding of the redis-bridge plugin's core components, translated
from the TypeScript sources:

* `src/circuit-breaker.ts`  — consecutive-failure circuit breaker
* `src/rate-limiter.ts`     — sliding one-hour-window rate limiter
* `src/listener.ts`         — outbound worker (`splitMessage`, `processEntry`)
* `src/tools.ts`            — the `redis_bridge` tool (`execute`)
* `index.ts`                — the `before_reply` hook and client wiring

Conventions of the embedding:

* JavaScript timestamps (`Date.now()`) are natural numbers of milliseconds.
* Strings on the hot paths are Lean `String`s; the chunking function works
  over `List Char` (a JS string is an array of code units; the messages
  handled here make no use of surrogate-pair subtleties).
* Effectful platform calls (Redis commands, the CLI child process, the HTTP
  publisher, `JSON.parse`) are modelled as oracle inputs: each invocation
  takes an environment recording what those calls would return, including
  thrown exceptions (`ExcResult.exc`).  Pure in-process code (loggers,
  string manipulation) is modelled as non-throwing, matching the host
  contract assumed by the source.
-/

namespace RedisBridge

/-- Outcome of an awaited platform call: a value, or a thrown exception
carrying its message. -/
inductive ExcResult (α : Type) where
  | ok (a : α)
  | exc (msg : String)
deriving DecidableEq, Repr

/-! ## Circuit breaker (`src/circuit-breaker.ts`) -/

/-- `CircuitBreakerOptions` with defaults resolved
(`threshold ?? 5`, `cooldownMs ?? 15_000`). -/
structure BreakerCfg where
  threshold : Nat
  cooldownMs : Nat
deriving DecidableEq, Repr

/-- The defaults: `DEFAULT_THRESHOLD = 5`, `DEFAULT_COOLDOWN_MS = 15_000`. -/
def defaultBreakerCfg : BreakerCfg := ⟨5, 15000⟩

/-- The breaker's mutable state: `let failures = 0; let openedAt = 0;`. -/
structure BreakerState where
  failures : Nat
  openedAt : Nat
deriving DecidableEq, Repr

inductive CircuitState where
  | closed
  | open
  | halfOpen
deriving DecidableEq, Repr

/-- `getState()`: `if (failures < threshold) return "closed";
const elapsed = Date.now() - openedAt; if (elapsed >= cooldownMs) return
"half-open"; return "open";`.  `now` is the value of `Date.now()`;
the subtraction is on JS numbers, hence over `Int`. -/
def getState (cfg : BreakerCfg) (s : BreakerState) (now : Nat) : CircuitState :=
  if s.failures < cfg.threshold then .closed
  else if (now : Int) - (s.openedAt : Int) ≥ (cfg.cooldownMs : Int) then .halfOpen
  else .open

/-- `recordSuccess()`: `failures = 0; openedAt = 0;`. -/
def recordSuccess (_s : BreakerState) : BreakerState := ⟨0, 0⟩

/-- `recordFailure()`: `failures++; if (failures >= threshold) openedAt = Date.now();`. -/
def recordFailure (cfg : BreakerCfg) (s : BreakerState) (now : Nat) : BreakerState :=
  let f := s.failures + 1
  ⟨f, if f ≥ cfg.threshold then now else s.openedAt⟩

def isOpen (cfg : BreakerCfg) (s : BreakerState) (now : Nat) : Bool :=
  getState cfg s now = .open

def isHalfOpen (cfg : BreakerCfg) (s : BreakerState) (now : Nat) : Bool :=
  getState cfg s now = .halfOpen

/-! ## Rate limiter (`src/rate-limiter.ts`) -/

structure RateLimiterConfig where
  maxRequestsPerHour : Nat
  maxRequestsPerAgentPerHour : Nat
  alertChatId : String
  alertCooldownSeconds : Nat
deriving DecidableEq, Repr

/-- `WINDOW_MS = 3_600_000` (one hour). -/
def WINDOW_MS : Nat := 3600000

/-- Rate limiter state: the global window, the per-agent windows
(`Map<string, WindowEntry[]>`, modelled as an association list with unique
keys), and `lastAlertAt`.  Window entries are their timestamps. -/
structure RateState where
  globalWindow : List Nat
  agentWindows : List (String × List Nat)
  lastAlertAt : Nat
deriving DecidableEq, Repr

/-- `pruneWindow`: `while (window.length > 0 && window[0].timestamp < cutoff)
window.shift();` with `cutoff = Date.now() - WINDOW_MS`.  Windows are
append-ordered, so shifting while the head is stale is `dropWhile`.
(JS `cutoff` may be negative for small `now`; timestamps are nonnegative so
no entry is dropped then, which agrees with the truncated `Nat` cutoff.) -/
def pruneWindow (now : Nat) (w : List Nat) : List Nat :=
  w.dropWhile (fun t => t < now - WINDOW_MS)

/-- Lookup of `agentWindows.get(id)`, with `getAgentWindow`'s creation of a
missing window as the empty list. -/
def lookupAgentWindow (m : List (String × List Nat)) (id : String) : List Nat :=
  match m.find? (fun kv => kv.1 = id) with
  | some kv => kv.2
  | none => []

/-- Store `w` as agent `id`'s window (replace the existing binding, or append
a new one — `Map.set` semantics on an association list with unique keys). -/
def setAgentWindow (m : List (String × List Nat)) (id : String) (w : List Nat) :
    List (String × List Nat) :=
  if m.any (fun kv => kv.1 = id) then
    m.map (fun kv => if kv.1 = id then (kv.1, w) else kv)
  else m ++ [(id, w)]

def agentLimitMsg (cfg : RateLimiterConfig) (agentId : String) : String :=
  "Rate limit: agent " ++ agentId ++ " a atteint " ++
    toString cfg.maxRequestsPerAgentPerHour ++
    " requetes/heure. Reessaie dans quelques minutes."

def globalLimitMsg (cfg : RateLimiterConfig) : String :=
  "Rate limit: le systeme a atteint " ++ toString cfg.maxRequestsPerHour ++
    " requetes/heure. Reessaie dans quelques minutes."

/-- `check(agentId)`: prune the global window, prune (creating if needed) the
agent's window, then test the per-agent limit, then the global limit.
Returns the limit message (or `none`) together with the mutated state. -/
def rlCheck (cfg : RateLimiterConfig) (st : RateState) (agentId : String) (now : Nat) :
    Option String × RateState :=
  let g := pruneWindow now st.globalWindow
  let a := pruneWindow now (lookupAgentWindow st.agentWindows agentId)
  let st' : RateState := ⟨g, setAgentWindow st.agentWindows agentId a, st.lastAlertAt⟩
  if a.length ≥ cfg.maxRequestsPerAgentPerHour then
    (some (agentLimitMsg cfg agentId), st')
  else if g.length ≥ cfg.maxRequestsPerHour then
    (some (globalLimitMsg cfg), st')
  else
    (none, st')

/-- `record(agentId)`: push `{timestamp: Date.now()}` onto the global window
and the agent's window. -/
def rlRecord (st : RateState) (agentId : String) (now : Nat) : RateState :=
  ⟨st.globalWindow ++ [now],
   setAgentWindow st.agentWindows agentId
     (lookupAgentWindow st.agentWindows agentId ++ [now]),
   st.lastAlertAt⟩

/-! ## Message chunking (`src/listener.ts`, `splitMessage`) -/

/-- JS whitespace test used by `trimEnd`/`trimStart`.  The embedding uses
ASCII whitespace (space, tab, newline, carriage return); the JS set is a
superset, but the two agree on every character the bridge manipulates. -/
def isWs (c : Char) : Bool := c.isWhitespace

/-- `String.prototype.trimStart()`. -/
def trimStartL (s : List Char) : List Char := s.dropWhile isWs

/-- `String.prototype.trimEnd()`. -/
def trimEndL (s : List Char) : List Char := (s.reverse.dropWhile isWs).reverse

/-- `String.prototype.trim()`. -/
def trimBoth (s : List Char) : List Char := trimStartL (trimEndL s)

/-- Downward search for an occurrence of `needle` starting at index `≤ k`. -/
def lastIndexOfGo (s needle : List Char) : Nat → Option Nat
  | 0 => if needle.isPrefixOf s then some 0 else none
  | i + 1 =>
    if needle.isPrefixOf (s.drop (i + 1)) then some (i + 1)
    else lastIndexOfGo s needle i

/-- `String.prototype.lastIndexOf(needle, pos)`: index of the last occurrence
of `needle` starting at an index `≤ pos`; `none` for JS `-1`. -/
def lastIndexOf (s needle : List Char) (pos : Nat) : Option Nat :=
  lastIndexOfGo s needle (min pos s.length)

def NLNL : List Char := ['\n', '\n']

def NL : List Char := ['\n']

/-- The loop body of `splitMessage`, with explicit fuel.  Each iteration
shortens `remaining` by at least one character when `1 ≤ maxLen`, so fuel
equal to the initial length makes the fuel-exhaustion fallback unreachable;
the fallback mirrors the JS loop's only observable output at that point
(the current `remaining`).

The JS guard `splitIdx > maxLen * 0.3` is a float comparison; it is embedded
as the exact rational test `10 * splitIdx > 3 * maxLen`.  At the only chunk
size the worker uses (`maxLen = 4000`) the float product is exactly `1200`,
so the two tests coincide there (and a `-1` from `lastIndexOf`, `none` here,
fails both).  -/
def splitGo (maxLen : Nat) : Nat → List Char → List (List Char)
  | 0, remaining => if remaining.length = 0 then [] else [remaining]
  | fuel + 1, remaining =>
    if remaining.length ≤ maxLen then
      if remaining.length = 0 then [] else [remaining]
    else
      let hard :=
        remaining.take maxLen :: splitGo maxLen fuel (remaining.drop maxLen)
      let lineCase :=
        match lastIndexOf remaining NL maxLen with
        | some j =>
          if 10 * j > 3 * maxLen then
            trimEndL (remaining.take j) ::
              splitGo maxLen fuel (trimStartL (remaining.drop (j + 1)))
          else hard
        | none => hard
      match lastIndexOf remaining NLNL maxLen with
      | some i =>
        if 10 * i > 3 * maxLen then
          trimEndL (remaining.take i) ::
            splitGo maxLen fuel (trimStartL (remaining.drop (i + 2)))
        else lineCase
      | none => lineCase

/-- `splitMessage(text, maxLen)`: one chunk when `text.length <= maxLen`
(including the empty text), else the splitting loop. -/
def splitMessage (text : List Char) (maxLen : Nat) : List (List Char) :=
  if text.length ≤ maxLen then [text] else splitGo maxLen text.length text

/-- `chunks` reassemble `text` when interleaved with (dropped) all-whitespace
boundary runs: the formal reading of "concatenation of the chunks equals the
text up to whitespace removed at chunk boundaries". -/
inductive SplitJoin : List Char → List (List Char) → Prop
  | nil : SplitJoin [] []
  | single (c : List Char) : SplitJoin c [c]
  | cons (c w rest : List Char) (cs : List (List Char))
      (hw : ∀ x ∈ w, isWs x) (h : SplitJoin rest cs) :
      SplitJoin (c ++ w ++ rest) (c :: cs)

/-! ## Shared bridge configuration (`src/config.ts`, `src/types.ts`) -/

structure BridgeConfig where
  agents : List String
  timeoutSeconds : Nat
deriving DecidableEq, Repr

/-- `isEngineAgent`: `config.agents.includes(agentId)`. -/
def isEngineAgent (agentId : String) (cfg : BridgeConfig) : Bool :=
  cfg.agents.contains agentId

def STREAM_INBOUND : String := "bridge:inbound"

def PROTOCOL_VERSION : String := "1"

/-- JS truthiness of an optional string-valued field (`undefined` and `""`
are falsy). -/
def truthyStr : Option String → Bool
  | some s => s ≠ ""
  | none => false

/-- `a.includes(b)` on JS strings: `b` occurs as a contiguous substring. -/
def includesSub (s pat : String) : Bool :=
  (List.range (s.toList.length + 1)).any
    (fun i => pat.toList.isPrefixOf (s.toList.drop i))

/-! ## The `before_reply` hook (`index.ts`, lines 498–632) -/

/-- The host event.  `commandBody` is typed `string` by the host (the code's
`event.commandBody ?? ""` is a defensive no-op under that typing); the
remaining routing fields are optional. -/
structure HookEvent where
  commandBody : String
  msgFrom : Option String
  channel : Option String
  accountId : Option String
  sessionKey : Option String
  senderName : Option String
  senderUsername : Option String
  senderId : Option String
  transcript : Option String
deriving DecidableEq, Repr

/-- What `JSON.parse` of a rendezvous value yields, restricted to the
engine's documented response shape `{"text"?: string, "error"?: string}`:
the `error` and `text` properties, `none` when absent. -/
structure ParsedResp where
  errorField : Option String
  textField : Option String
deriving DecidableEq, Repr

/-- Oracle for one hook invocation: the current clock, the generated UUID,
and the outcomes of every awaited platform call on the path.
`parse raw = none` models `JSON.parse(raw)` throwing. -/
structure HookEnv where
  now : Nat
  correlationId : String
  redisReady : Bool
  ensureResult : ExcResult Bool
  xaddResult : ExcResult Unit
  brpopResult : ExcResult (Option String)
  parse : String → Option ParsedResp

/-- The hook's return value: `undefined` (pass through to the host) or
`{reply: {text, isError?}}`; an absent `isError` is `false`. -/
inductive HookResult where
  | passThrough
  | reply (text : String) (isError : Bool)
deriving DecidableEq, Repr

/-- Observable side effects of one hook invocation.  `writes` records the
field/value payload of each `XADD` to `bridge:inbound` issued (the command's
payload, recorded whether or not the broker call then fails);
`caught` is the message captured by the outer `catch`. -/
structure HookEffects where
  writes : List (List (String × String))
  brpopCalls : Nat
  recordFailures : Nat
  recordSuccesses : Nat
  rateRecorded : Bool
  breakerChecked : Bool
  caught : Option String
deriving DecidableEq, Repr

def noHookEffects : HookEffects := ⟨[], 0, 0, 0, false, false, none⟩

/-- Effects accumulated by the time the hook enters its `try` block: the
rate limiter has been charged and the breaker consulted. -/
def hookBaseEffects : HookEffects := ⟨[], 0, 0, 0, true, true, none⟩

structure HookOutput where
  res : HookResult
  eff : HookEffects
  breaker : BreakerState
  rate : RateState
deriving DecidableEq, Repr

def circuitOpenMsg : String :=
  "Le moteur Effectual est temporairement indisponible. Reessaie dans quelques secondes."

def redisLostMsg : String :=
  "Le moteur Effectual est temporairement indisponible (connexion Redis perdue). Reessaie dans quelques secondes."

def engineTimeoutMsg : String := "The engine did not respond in time. Please try again."

def engineErrorMsg (e : String) : String := "Engine error: " ++ e

def caughtMsg (m : String) : String :=
  "Le moteur Effectual a rencontre une erreur: " ++ m ++ ". Reessaie dans quelques secondes."

/-- One optional `xaddArgs.push(key, value)` guarded by `if (event.field)`. -/
def optField (key : String) (v : Option String) : List (String × String) :=
  match v with
  | some s => if s ≠ "" then [(key, s)] else []
  | none => []

/-- The `xaddArgs` payload built by the hook (lines 566–582): the nine
mandatory fields, then the truthiness-guarded optional ones. -/
def hookXaddFields (event : HookEvent) (aid correlationId : String) (now : Nat) :
    List (String × String) :=
  [("correlationId", correlationId),
   ("message", event.commandBody),
   ("from", event.msgFrom.getD "proxy"),
   ("agent", aid),
   ("channel", event.channel.getD "unknown"),
   ("accountId", event.accountId.getD aid),
   ("timestamp", toString now),
   ("sessionKey", event.sessionKey.getD
      ((event.channel.getD "unknown") ++ ":" ++ (event.accountId.getD aid) ++ ":" ++
        (event.msgFrom.getD "anon"))),
   ("protocolVersion", PROTOCOL_VERSION)]
  ++ optField "senderName" event.senderName
  ++ optField "senderUsername" event.senderUsername
  ++ optField "senderId" event.senderId
  ++ optField "transcript" event.transcript

/-- The outer `catch` (lines 617–631): record a breaker failure and return
the localized generic error reply. -/
def hookCatch (brCfg : BreakerCfg) (m : String) (eff : HookEffects)
    (br : BreakerState) (rl : RateState) (now : Nat) : HookOutput :=
  ⟨.reply (caughtMsg m) true,
   { eff with recordFailures := eff.recordFailures + 1, caught := some m },
   recordFailure brCfg br now, rl⟩

/-- The straight-line body of the hook's `try` block once the broker is
known ready (lines 561–616): `XADD`, rendezvous `BRPOP`, response parsing —
with the outer `catch` applied to any throw. -/
def hookAfterReady (brCfg : BreakerCfg) (event : HookEvent) (aid : String)
    (br : BreakerState) (rl : RateState) (eff : HookEffects) (env : HookEnv) : HookOutput :=
  let w := hookXaddFields event aid env.correlationId env.now
  let eff1 := { eff with writes := eff.writes ++ [w] }
  match env.xaddResult with
  | .exc m => hookCatch brCfg m eff1 br rl env.now
  | .ok _ =>
    let eff2 := { eff1 with brpopCalls := eff1.brpopCalls + 1 }
    match env.brpopResult with
    | .exc m => hookCatch brCfg m eff2 br rl env.now
    | .ok none =>
      ⟨.reply engineTimeoutMsg true,
       { eff2 with recordFailures := eff2.recordFailures + 1 },
       recordFailure brCfg br env.now, rl⟩
    | .ok (some raw) =>
      let parsed : ParsedResp :=
        match env.parse raw with
        | none => ⟨none, some raw⟩
        | some p => p
      match parsed.errorField with
      | some e =>
        if e ≠ "" then ⟨.reply (engineErrorMsg e) true, eff2, br, rl⟩
        else
          ⟨.reply (parsed.textField.getD raw) false,
           { eff2 with recordSuccesses := eff2.recordSuccesses + 1 },
           recordSuccess br, rl⟩
      | none =>
        ⟨.reply (parsed.textField.getD raw) false,
         { eff2 with recordSuccesses := eff2.recordSuccesses + 1 },
         recordSuccess br, rl⟩

/-- The `try` block of the hook (lines 539–631): the auto-repair gate in
front of the straight-line body, with the outer `catch` applied to any
throw. -/
def hookTry (brCfg : BreakerCfg) (event : HookEvent) (aid : String)
    (br : BreakerState) (rl : RateState) (eff : HookEffects) (env : HookEnv) : HookOutput :=
  if env.redisReady then hookAfterReady brCfg event aid br rl eff env
  else
    match env.ensureResult with
    | .exc m => hookCatch brCfg m eff br rl env.now
    | .ok false =>
      ⟨.reply redisLostMsg true,
       { eff with recordFailures := eff.recordFailures + 1 },
       recordFailure brCfg br env.now, rl⟩
    | .ok true => hookAfterReady brCfg event aid br rl eff env

/-- The `before_reply` hook (lines 498–632): agent gate, heartbeat filter,
rate limiter check+record, circuit breaker, then the `try` block. -/
def beforeReply (cfg : BridgeConfig) (rlCfg : RateLimiterConfig) (brCfg : BreakerCfg)
    (event : HookEvent) (agentId : Option String)
    (br : BreakerState) (rl : RateState) (env : HookEnv) : HookOutput :=
  match agentId with
  | none => ⟨.passThrough, noHookEffects, br, rl⟩
  | some aid =>
    if !isEngineAgent aid cfg then ⟨.passThrough, noHookEffects, br, rl⟩
    else
      let body := event.commandBody
      if includesSub body "HEARTBEAT_OK" || includesSub body "Read HEARTBEAT.md" then
        ⟨.reply "HEARTBEAT_OK" false, noHookEffects, br, rl⟩
      else
        match rlCheck rlCfg rl aid env.now with
        | (some msg, rl') => ⟨.reply msg true, noHookEffects, br, rl'⟩
        | (none, rl') =>
          let rl2 := rlRecord rl' aid env.now
          if isOpen brCfg br env.now then
            ⟨.reply circuitOpenMsg true, hookBaseEffects, br, rl2⟩
          else
            hookTry brCfg event aid br rl2 hookBaseEffects env

/-! ## The `redis_bridge` tool (`src/tools.ts`) -/

/-- Oracle for one tool `execute` call. -/
structure ToolEnv where
  now : Nat
  correlationId : String
  xaddResult : ExcResult Unit
  brpopResult : ExcResult (Option String)
  parse : String → Option ParsedResp

structure ToolEffects where
  writes : List (List (String × String))
  brpopCalls : Nat
deriving DecidableEq, Repr

/-- The `XADD` payload built by the tool's `execute` (lines 40–49). -/
def toolXaddFields (correlationId message agent channel : String) (now : Nat) :
    List (String × String) :=
  [("correlationId", correlationId),
   ("message", message),
   ("from", "proxy"),
   ("agent", agent),
   ("channel", channel),
   ("timestamp", toString now)]

/-- The tool's `execute`: throws (`Except.error`) on empty message, broker
errors, timeout, and engine `error`; otherwise returns the text content. -/
def toolExecute (cfg : BridgeConfig) (ctxAgentId ctxChannel : Option String)
    (message : String) (env : ToolEnv) : Except String String × ToolEffects :=
  if trimBoth message.toList = [] then (.error "message is required", ⟨[], 0⟩)
  else
    let agent := ctxAgentId.getD "unknown"
    let channel := ctxChannel.getD "unknown"
    let w := toolXaddFields env.correlationId message agent channel env.now
    match env.xaddResult with
    | .exc m => (.error m, ⟨[w], 0⟩)
    | .ok _ =>
      match env.brpopResult with
      | .exc m => (.error m, ⟨[w], 1⟩)
      | .ok none =>
        (.error ("Engine response timed out after " ++ toString cfg.timeoutSeconds ++ "s"),
         ⟨[w], 1⟩)
      | .ok (some raw) =>
        let parsed : ParsedResp :=
          match env.parse raw with
          | none => ⟨none, some raw⟩
          | some p => p
        match parsed.errorField with
        | some e =>
          if e ≠ "" then (.error (engineErrorMsg e), ⟨[w], 1⟩)
          else (.ok (parsed.textField.getD raw), ⟨[w], 1⟩)
        | none => (.ok (parsed.textField.getD raw), ⟨[w], 1⟩)

/-! ## Client wiring (`index.ts` lines 354–363, 486, 583, 585, 635;
`src/tools.ts` line 52; `src/listener.ts`) -/

/-- The two ioredis clients created in `register()`: `redis` (normal) and
`redisBlocking` (dedicated blocking connection). -/
inductive RClient where
  | normal
  | blocking
deriving DecidableEq, Repr

/-- The broker operations the plugin issues. -/
inductive BrokerOp where
  | hookXadd
  | hookBrpop
  | toolXadd
  | toolBrpop
  | workerXreadgroup
  | workerXack
  | workerXpending
  | workerXgroupCreate
deriving DecidableEq, Repr

/-- Which client each call site uses, transcribed from the source:
the hook uses `redis.xadd` (583) and `redisBlocking.brpop` (585); the tool is
constructed as `createRedisBridgeTool(redis, …)` (486) and calls
`redis.xadd` / `redis.brpop` on it; the listener is constructed as
`createOutboundListener(redis, …)` (635) and issues `xreadgroup`, `xack`,
`xpending`, `xgroup CREATE` on that client. -/
def clientOf : BrokerOp → RClient
  | .hookXadd => .normal
  | .hookBrpop => .blocking
  | .toolXadd => .normal
  | .toolBrpop => .normal
  | .workerXreadgroup => .normal
  | .workerXack => .normal
  | .workerXpending => .normal
  | .workerXgroupCreate => .normal

/-- Which operations are blocking Redis commands (`BRPOP`, and `XREADGROUP`
with `BLOCK`). -/
def isBlockingOp : BrokerOp → Bool
  | .hookBrpop => true
  | .toolBrpop => true
  | .workerXreadgroup => true
  | _ => false

/-! ## Outbound worker (`src/listener.ts`, `processEntry` and helpers) -/

def PUBLISH_THRESHOLD : Nat := 3000

def SUMMARY_PREVIEW_LEN : Nat := 200

def MAX_MSG_LEN : Nat := 4000

def DEAD_LETTER_MAX_RETRIES : Nat := 5

/-- Flat `XADD` field list to key/value pairs (`for (i += 2) data[fields[i]]
= fields[i+1] ?? ""`); a trailing key with no value gets `""`. -/
def pairList : List String → List (String × String)
  | [] => []
  | [k] => [(k, "")]
  | k :: v :: rest => (k, v) :: pairList rest

/-- Property lookup on the parsed record: later duplicate keys overwrite
earlier ones, as JS object assignment does. -/
def getField (fields : List String) (key : String) : Option String :=
  (pairList fields).foldl (fun acc kv => if kv.1 = key then some kv.2 else acc) none

/-- Length of the run of `'#'` at the head. -/
def hashRun (s : List Char) : Nat := (s.takeWhile (fun c => c = '#')).length

/-- Length of the whitespace run at the head. -/
def wsRunLen (s : List Char) : Nat := (s.takeWhile isWs).length

/-- `body.replace(/^#{1,6}\s+/gm, "")`: at each line start, a run of one to
six `#` followed by at least one whitespace character (greedy, so the whole
run, which may cross line breaks) is removed; everything else is copied.
The next scan position is a line start iff the last removed character was a
newline. -/
def stripHeadingsGo : Nat → List Char → Bool → List Char
  | 0, s, _ => s
  | fuel + 1, s, atStart =>
    let h := hashRun s
    let w := wsRunLen (s.drop h)
    if atStart ∧ 1 ≤ h ∧ h ≤ 6 ∧ 1 ≤ w then
      stripHeadingsGo fuel (s.drop (h + w)) ((s.take (h + w)).getLast? = some '\n')
    else
      match s with
      | [] => []
      | c :: rest => c :: stripHeadingsGo fuel rest (c = '\n')

def stripHeadings (s : List Char) : List Char := stripHeadingsGo s.length s true

/-- The characters removed by `.replace(/[*_~`]/g, "")` (the last one is the
backquote). -/
def FORMATTING_CHARS : List Char := ['*', '_', '~', Char.ofNat 96]

def stripFormatting (s : List Char) : List Char :=
  s.filter (fun c => !(FORMATTING_CHARS.contains c))

/-- `buildTelegramSummary(title, body, url)`. -/
def buildTelegramSummary (title body url : String) : String :=
  let plain := trimBoth (stripFormatting (stripHeadings body.toList))
  let preview :=
    if plain.length > SUMMARY_PREVIEW_LEN then
      String.mk (trimBoth (plain.take SUMMARY_PREVIEW_LEN)) ++ "..."
    else String.mk plain
  title ++ "\n\n" ++ preview ++ "\n\nLire la suite : " ++ url

/-- Listener configuration slice used by `processEntry` (all strings; empty
means "not configured"). -/
structure ListenerCfg where
  consumerGroup : String
  contentPublisherUrl : String
  contentPublisherToken : String
  contentPublisherPublicUrl : String
deriving DecidableEq, Repr

/-- Oracle for one `processEntry` call.  `xpendingResult`: `.exc` models the
`XPENDING` call throwing, `.ok none` an empty (or non-array) reply, and
`.ok (some dc)` a pending detail whose numeric delivery count is `dc`.
`publishResult` is what `tryPublish`'s `fetch` round-trip produces on
success — the `(title, publicUrl)` pair after `extractTitle` and the
public-base selection — or `none` on any HTTP/network failure; `tryPublish`'s
configuration guard stays in the embedding.  `cliOk i` is whether the `i`-th
CLI invocation exits successfully. -/
structure EntryEnv where
  xpendingResult : ExcResult (Option Nat)
  ackMalformed : ExcResult Unit
  ackDead : ExcResult Unit
  ackFinal : ExcResult Unit
  publishResult : Option (String × String)
  cliOk : Nat → Bool

structure EntryEffects where
  acks : Nat
  cliCalls : Nat
  warnedMalformed : Bool
  deadLettered : Bool
deriving DecidableEq, Repr

/-- The per-chunk CLI loop: invoke the CLI for each chunk in order, stopping
at the first failure.  Returns the number of invocations issued and whether
all of them succeeded. -/
def deliverChunks (ok : Nat → Bool) : List (List Char) → Nat → Nat × Bool
  | [], _ => (0, true)
  | _ :: rest, k =>
    if ok k then
      let r := deliverChunks ok rest (k + 1)
      (r.1 + 1, r.2)
    else (1, false)

/-- The message actually delivered: the oversize-publish replacement when
the message exceeds `PUBLISH_THRESHOLD`, the publisher is configured
(`tryPublish`'s guard) and the publish round-trip succeeded; the original
message otherwise. -/
def entryMessageToSend (cfg : ListenerCfg) (msg0 : String)
    (publishResult : Option (String × String)) : String :=
  if msg0.length > PUBLISH_THRESHOLD then
    match
      (if cfg.contentPublisherUrl = "" || cfg.contentPublisherToken = "" then none
       else publishResult) with
    | some tu => buildTelegramSummary tu.1 msg0 tu.2
    | none => msg0
  else msg0

def entryDeliver (cfg : ListenerCfg) (msg0 : String) (env : EntryEnv)
    (acks0 : Nat) (dead : Bool) : ExcResult Unit × EntryEffects :=
  let chunks := splitMessage (entryMessageToSend cfg msg0 env.publishResult).toList MAX_MSG_LEN
  let r := deliverChunks env.cliOk chunks 0
  if r.2 then
    match env.ackFinal with
    | .ok _ => (.ok (), ⟨acks0 + 1, r.1, false, dead⟩)
    | .exc _ => (.ok (), ⟨acks0 + 1, r.1, false, dead⟩)
  else (.ok (), ⟨acks0, r.1, false, dead⟩)

/-- `processEntry(entryId, fields, logger)`: malformed check (ack and warn),
best-effort dead-letter check, then oversize publish, chunking, per-chunk
CLI delivery and final ack.  The first component is the call's own outcome
(`.exc` only when the malformed-path `xack` throws, the one `await` outside
every `try`); `acks0`/`dead` thread the `xack` already issued and the
dead-letter log when that path's ack throws and delivery proceeds. -/
def processEntry (cfg : ListenerCfg) (fields : List String) (env : EntryEnv) :
    ExcResult Unit × EntryEffects :=
  let message := getField fields "message"
  let toDest := getField fields "to"
  let channel := getField fields "channel"
  if !truthyStr message || !truthyStr toDest || !truthyStr channel then
    match env.ackMalformed with
    | .ok _ => (.ok (), ⟨1, 0, true, false⟩)
    | .exc m => (.exc m, ⟨1, 0, true, false⟩)
  else
    match env.xpendingResult with
    | .exc _ => entryDeliver cfg (message.getD "") env 0 false
    | .ok none => entryDeliver cfg (message.getD "") env 0 false
    | .ok (some dc) =>
      if dc > DEAD_LETTER_MAX_RETRIES then
        match env.ackDead with
        | .ok _ => (.ok (), ⟨1, 0, false, true⟩)
        | .exc _ => entryDeliver cfg (message.getD "") env 1 true
      else entryDeliver cfg (message.getD "") env 0 false

/-! ## Helper lemmas -/

theorem dropWhile_isSuffix {α : Type} (p : α → Bool) (l : List α) :
    List.IsSuffix (l.dropWhile p) l :=
  ⟨l.takeWhile p, List.takeWhile_append_dropWhile p l⟩

theorem trimStartL_decomp (s : List Char) :
    ∃ w, s = w ++ trimStartL s ∧ ∀ c ∈ w, isWs c :=
  ⟨s.takeWhile isWs, (List.takeWhile_append_dropWhile isWs s).symm,
   fun _ hc => List.mem_takeWhile_imp hc⟩

theorem trimEndL_decomp (s : List Char) :
    ∃ w, s = trimEndL s ++ w ∧ ∀ c ∈ w, isWs c := by
  refine ⟨(s.reverse.takeWhile isWs).reverse, ?_, ?_⟩
  · conv_lhs => rw [← s.reverse_reverse,
      ← List.takeWhile_append_dropWhile isWs s.reverse]
    rw [List.reverse_append]
    rfl
  · intro c hc
    rw [List.mem_reverse] at hc
    exact List.mem_takeWhile_imp hc

theorem trimStartL_length_le (s : List Char) : (trimStartL s).length ≤ s.length := by
  obtain ⟨w, hw, -⟩ := trimStartL_decomp s
  conv_rhs => rw [hw]
  simp

theorem trimEndL_length_le (s : List Char) : (trimEndL s).length ≤ s.length := by
  obtain ⟨w, hw, -⟩ := trimEndL_decomp s
  conv_rhs => rw [hw]
  simp

theorem lastIndexOfGo_spec {s needle : List Char} :
    ∀ {k i : Nat}, lastIndexOfGo s needle k = some i →
      i ≤ k ∧ needle.isPrefixOf (s.drop i) = true := by
  intro k
  induction k with
  | zero =>
    intro i h
    unfold lastIndexOfGo at h
    split at h
    · cases h
      rename_i hp
      exact ⟨Nat.le_refl 0, by simpa using hp⟩
    · cases h
  | succ k ih =>
    intro i h
    unfold lastIndexOfGo at h
    split at h
    · cases h
      refine ⟨Nat.le_refl _, by assumption⟩
    · obtain ⟨h1, h2⟩ := ih h
      exact ⟨Nat.le_succ_of_le h1, h2⟩

theorem lastIndexOf_spec {s needle : List Char} {pos i : Nat}
    (h : lastIndexOf s needle pos = some i) :
    i ≤ pos ∧ needle.isPrefixOf (s.drop i) = true := by
  obtain ⟨h1, h2⟩ := lastIndexOfGo_spec h
  exact ⟨le_trans h1 (min_le_left _ _), h2⟩

theorem isPrefixOf_decomp {needle s : List Char} {i : Nat}
    (h : needle.isPrefixOf (s.drop i) = true) :
    s = s.take i ++ needle ++ s.drop (i + needle.length) := by
  have hp : needle <+: s.drop i := List.isPrefixOf_iff_prefix.mp h
  have heq : needle ++ List.drop needle.length (s.drop i) = s.drop i :=
    List.prefix_iff_eq_append.mp hp
  calc s = s.take i ++ s.drop i := (List.take_append_drop i s).symm
    _ = s.take i ++ (needle ++ List.drop needle.length (s.drop i)) := by rw [heq]
    _ = s.take i ++ needle ++ s.drop (i + needle.length) := by
        rw [List.drop_drop, List.append_assoc]

/-! ## C2 — circuit breaker semantics -/

/-- C2: with threshold `t` and cooldown `c`, the derived state is closed iff
`failures < t`; otherwise half-open iff `now - openedAt ≥ c` and open
otherwise.  `recordSuccess` resets both fields to zero (closing the
breaker), `recordFailure` increments `failures` and re-stamps `openedAt`
to `now` exactly when the new count reaches the threshold, and a failure
recorded while half-open yields the open state for a fresh cooldown. -/
theorem breaker_spec (cfg : BreakerCfg) (s : BreakerState) (now now' : Nat)
    (ht : 0 < cfg.threshold) :
    (getState cfg s now = .closed ↔ s.failures < cfg.threshold) ∧
    (s.failures ≥ cfg.threshold →
      (getState cfg s now = .halfOpen ↔ (now : Int) - s.openedAt ≥ cfg.cooldownMs) ∧
      (getState cfg s now = .open ↔ (now : Int) - s.openedAt < cfg.cooldownMs)) ∧
    (recordSuccess s = ⟨0, 0⟩ ∧ getState cfg (recordSuccess s) now = .closed) ∧
    ((recordFailure cfg s now).failures = s.failures + 1 ∧
      (s.failures + 1 ≥ cfg.threshold → (recordFailure cfg s now).openedAt = now) ∧
      (s.failures + 1 < cfg.threshold → (recordFailure cfg s now).openedAt = s.openedAt)) ∧
    (getState cfg s now = .halfOpen → (now' : Int) - now < cfg.cooldownMs →
      getState cfg (recordFailure cfg s now) now' = .open) := by
  refine ⟨?_, ?_, ?_, ?_, ?_⟩
  · unfold getState
    split
    · simp [*]
    · constructor
      · intro h
        split at h <;> simp_all
      · intro h
        omega
  · intro hge
    have hnlt : ¬ s.failures < cfg.threshold := Nat.not_lt.mpr hge
    unfold getState
    constructor
    · split
      · omega
      · split <;> simp_all
    · split
      · omega
      · split <;> simp_all
  · refine ⟨rfl, ?_⟩
    unfold getState recordSuccess
    simp [ht]
  · refine ⟨rfl, ?_, ?_⟩ <;> intro h <;> unfold recordFailure <;> simp <;> omega
  · intro hho hlt
    have hge : ¬ s.failures < cfg.threshold := by
      intro hcl
      unfold getState at hho
      rw [if_pos hcl] at hho
      cases hho
    have hsucc : s.failures + 1 ≥ cfg.threshold := by omega
    have h1 : ¬ (s.failures + 1 < cfg.threshold) := by omega
    unfold recordFailure getState
    dsimp only
    rw [if_neg h1, if_pos hsucc,
      if_neg (by omega : ¬ ((now' : Int) - (now : Int) ≥ (cfg.cooldownMs : Int)))]

/-- Witness for `breaker_spec` at the default configuration: a half-open
breaker (five failures, cooldown elapsed) re-opens on a recorded failure. -/
theorem breaker_spec_witness :
    0 < defaultBreakerCfg.threshold ∧
    getState defaultBreakerCfg
      (recordFailure defaultBreakerCfg ⟨5, 1000⟩ 16000) 16500 = .open :=
  ⟨by decide,
   (breaker_spec defaultBreakerCfg ⟨5, 1000⟩ 16000 16500 (by decide)).2.2.2.2
     (by decide) (by decide)⟩

/-! ## C3 — rate limiter `check` -/

/-- C3: `check(agentId)` returns a message iff, after pruning entries older
than one hour from the global window and the agent's window, the agent
window is at or over `maxRequestsPerAgentPerHour` or the global window is at
or over `maxRequestsPerHour`; the per-agent limit is tested first (its
message names the agent); and `check` only prunes — the resulting windows
are suffixes of the originals, so nothing is ever appended. -/
theorem rlCheck_spec (cfg : RateLimiterConfig) (st : RateState) (agentId : String) (now : Nat) :
    ((rlCheck cfg st agentId now).1.isSome ↔
       (pruneWindow now (lookupAgentWindow st.agentWindows agentId)).length ≥
         cfg.maxRequestsPerAgentPerHour ∨
       (pruneWindow now st.globalWindow).length ≥ cfg.maxRequestsPerHour) ∧
    ((pruneWindow now (lookupAgentWindow st.agentWindows agentId)).length ≥
        cfg.maxRequestsPerAgentPerHour →
      (rlCheck cfg st agentId now).1 = some (agentLimitMsg cfg agentId)) ∧
    ((rlCheck cfg st agentId now).2 =
      ⟨pruneWindow now st.globalWindow,
       setAgentWindow st.agentWindows agentId
         (pruneWindow now (lookupAgentWindow st.agentWindows agentId)),
       st.lastAlertAt⟩) ∧
    List.IsSuffix (pruneWindow now st.globalWindow) st.globalWindow ∧
    List.IsSuffix (pruneWindow now (lookupAgentWindow st.agentWindows agentId))
      (lookupAgentWindow st.agentWindows agentId) := by
  refine ⟨?_, ?_, ?_, dropWhile_isSuffix _ _, dropWhile_isSuffix _ _⟩
  · unfold rlCheck
    dsimp only
    split_ifs with h1 h2 <;> simp_all
  · intro h
    unfold rlCheck
    dsimp only
    rw [if_pos h]
  · unfold rlCheck
    dsimp only
    split_ifs <;> rfl

/-- Witness for `rlCheck_spec`: an agent with three requests in the window
against a per-agent limit of two is denied with the agent-specific
message. -/
theorem rlCheck_spec_witness :
    (pruneWindow 5 (lookupAgentWindow [("a", [1, 2, 3])] "a")).length ≥ 2 ∧
    (rlCheck ⟨60, 2, "", 300⟩ ⟨[], [("a", [1, 2, 3])], 0⟩ "a" 5).1 =
      some (agentLimitMsg ⟨60, 2, "", 300⟩ "a") :=
  ⟨by decide,
   (rlCheck_spec ⟨60, 2, "", 300⟩ ⟨[], [("a", [1, 2, 3])], 0⟩ "a" 5).2.1 (by decide)⟩

/-! ## C4 — `splitMessage` chunking -/

theorem splitJoin_boundary {remaining needle : List Char} {i : Nat} {cs : List (List Char)}
    (hws : ∀ x ∈ needle, isWs x)
    (hpre : needle.isPrefixOf (remaining.drop i) = true)
    (h : SplitJoin (trimStartL (remaining.drop (i + needle.length))) cs) :
    SplitJoin remaining (trimEndL (remaining.take i) :: cs) := by
  obtain ⟨w1, hw1, hw1ws⟩ := trimEndL_decomp (remaining.take i)
  obtain ⟨w2, hw2, hw2ws⟩ := trimStartL_decomp (remaining.drop (i + needle.length))
  have hre : remaining =
      trimEndL (remaining.take i) ++ (w1 ++ needle ++ w2) ++
        trimStartL (remaining.drop (i + needle.length)) := by
    calc remaining
        = remaining.take i ++ needle ++ remaining.drop (i + needle.length) :=
          isPrefixOf_decomp hpre
      _ = (trimEndL (remaining.take i) ++ w1) ++ needle ++
            (w2 ++ trimStartL (remaining.drop (i + needle.length))) := by
          rw [← hw1, ← hw2]
      _ = _ := by simp [List.append_assoc]
  nth_rewrite 1 [hre]
  refine SplitJoin.cons _ _ _ _ ?_ h
  intro x hx
  simp only [List.mem_append] at hx
  rcases hx with (hx | hx) | hx
  · exact hw1ws x hx
  · exact hws x hx
  · exact hw2ws x hx

theorem splitJoin_hard {remaining : List Char} {n : Nat} {cs : List (List Char)}
    (h : SplitJoin (remaining.drop n) cs) :
    SplitJoin remaining (remaining.take n :: cs) := by
  have hre : remaining = remaining.take n ++ [] ++ remaining.drop n := by
    simp [List.take_append_drop]
  nth_rewrite 1 [hre]
  exact SplitJoin.cons _ [] _ _ (by simp) h

theorem splitGo_branch_boundary (maxLen fuel : Nat)
    (remaining needle : List Char) (idx : Nat)
    (hws : ∀ x ∈ needle, isWs x) (hnl : 1 ≤ needle.length)
    (hfound : lastIndexOf remaining needle maxLen = some idx)
    (hgt : maxLen < remaining.length) (hfuel : remaining.length ≤ fuel + 1)
    (IH : ∀ r : List Char, r.length ≤ fuel →
      (∀ c ∈ splitGo maxLen fuel r, c.length ≤ maxLen) ∧
        SplitJoin r (splitGo maxLen fuel r)) :
    (∀ c ∈ trimEndL (remaining.take idx) ::
        splitGo maxLen fuel (trimStartL (remaining.drop (idx + needle.length))),
      c.length ≤ maxLen) ∧
    SplitJoin remaining
      (trimEndL (remaining.take idx) ::
        splitGo maxLen fuel (trimStartL (remaining.drop (idx + needle.length)))) := by
  obtain ⟨hidx, hpre⟩ := lastIndexOf_spec hfound
  have hr : (trimStartL (remaining.drop (idx + needle.length))).length ≤ fuel := by
    have h1 := trimStartL_length_le (remaining.drop (idx + needle.length))
    have h2 := List.length_drop (idx + needle.length) remaining
    omega
  obtain ⟨hchunks, hjoin⟩ := IH _ hr
  refine ⟨?_, splitJoin_boundary hws hpre hjoin⟩
  intro c hc
  rcases List.mem_cons.mp hc with rfl | hc
  · have h3 := trimEndL_length_le (remaining.take idx)
    have h4 := List.length_take idx remaining
    omega
  · exact hchunks c hc

theorem splitGo_branch_hard (maxLen fuel : Nat) (hm : 1 ≤ maxLen) (remaining : List Char)
    (hgt : maxLen < remaining.length) (hfuel : remaining.length ≤ fuel + 1)
    (IH : ∀ r : List Char, r.length ≤ fuel →
      (∀ c ∈ splitGo maxLen fuel r, c.length ≤ maxLen) ∧
        SplitJoin r (splitGo maxLen fuel r)) :
    (∀ c ∈ remaining.take maxLen :: splitGo maxLen fuel (remaining.drop maxLen),
      c.length ≤ maxLen) ∧
    SplitJoin remaining
      (remaining.take maxLen :: splitGo maxLen fuel (remaining.drop maxLen)) := by
  have hr : (remaining.drop maxLen).length ≤ fuel := by
    have := List.length_drop maxLen remaining
    omega
  obtain ⟨hchunks, hjoin⟩ := IH _ hr
  refine ⟨?_, splitJoin_hard hjoin⟩
  intro c hc
  rcases List.mem_cons.mp hc with rfl | hc
  · have := List.length_take maxLen remaining
    omega
  · exact hchunks c hc

theorem splitGo_spec (maxLen : Nat) (hm : 1 ≤ maxLen) :
    ∀ (fuel : Nat) (remaining : List Char), remaining.length ≤ fuel →
      (∀ c ∈ splitGo maxLen fuel remaining, c.length ≤ maxLen) ∧
      SplitJoin remaining (splitGo maxLen fuel remaining) := by
  intro fuel
  induction fuel with
  | zero =>
    intro remaining hlen
    have hnil : remaining = [] := List.length_eq_zero.mp (Nat.le_zero.mp hlen)
    subst hnil
    have hnil2 : splitGo maxLen 0 ([] : List Char) = [] := by simp [splitGo]
    rw [hnil2]
    exact ⟨(by intro c hc; cases hc), SplitJoin.nil⟩
  | succ fuel ih =>
    intro remaining hlen
    by_cases hle : remaining.length ≤ maxLen
    · unfold splitGo
      rw [if_pos hle]
      by_cases hz : remaining.length = 0
      · rw [if_pos hz]
        have hnil : remaining = [] := List.length_eq_zero.mp (Nat.le_zero.mp (Nat.le_of_eq hz))
        subst hnil
        exact ⟨(by intro c hc; cases hc), SplitJoin.nil⟩
      · rw [if_neg hz]
        refine ⟨?_, SplitJoin.single remaining⟩
        intro c hc
        rcases List.mem_cons.mp hc with rfl | hc
        · exact hle
        · cases hc
    · have hgt : maxLen < remaining.length := Nat.lt_of_not_le hle
      unfold splitGo
      rw [if_neg hle]
      dsimp only
      rcases hNN : lastIndexOf remaining NLNL maxLen with _ | i
      · dsimp only
        rcases hNL : lastIndexOf remaining NL maxLen with _ | j
        · dsimp only
          exact splitGo_branch_hard maxLen fuel hm remaining hgt hlen ih
        · dsimp only
          by_cases hg : 10 * j > 3 * maxLen
          · rw [if_pos hg]
            have hb := splitGo_branch_boundary maxLen fuel remaining NL j
              (by decide) (by decide) hNL hgt hlen ih
            simpa [NL] using hb
          · rw [if_neg hg]
            exact splitGo_branch_hard maxLen fuel hm remaining hgt hlen ih
      · dsimp only
        by_cases hg : 10 * i > 3 * maxLen
        · rw [if_pos hg]
          have hb := splitGo_branch_boundary maxLen fuel remaining NLNL i
            (by decide) (by decide) hNN hgt hlen ih
          simpa [NLNL] using hb
        · rw [if_neg hg]
          rcases hNL : lastIndexOf remaining NL maxLen with _ | j
          · dsimp only
            exact splitGo_branch_hard maxLen fuel hm remaining hgt hlen ih
          · dsimp only
            by_cases hg2 : 10 * j > 3 * maxLen
            · rw [if_pos hg2]
              have hb := splitGo_branch_boundary maxLen fuel remaining NL j
                (by decide) (by decide) hNL hgt hlen ih
              simpa [NL] using hb
            · rw [if_neg hg2]
              exact splitGo_branch_hard maxLen fuel hm remaining hgt hlen ih

/-- C4: `splitMessage(text, 4000)` returns the single chunk `[text]` for
every text of length at most 4000; for every longer text every returned
chunk has length at most 4000, and the chunks, in order, reassemble the
original text with only all-whitespace runs dropped at the chunk
boundaries (`SplitJoin`). -/
theorem splitMessage_spec (text : List Char) :
    (text.length ≤ 4000 → splitMessage text 4000 = [text]) ∧
    (4000 < text.length →
      (∀ c ∈ splitMessage text 4000, c.length ≤ 4000) ∧
      SplitJoin text (splitMessage text 4000)) := by
  constructor
  · intro h
    unfold splitMessage
    rw [if_pos h]
  · intro h
    unfold splitMessage
    rw [if_neg (Nat.not_le_of_lt h)]
    exact splitGo_spec 4000 (by decide) text.length text (Nat.le_refl _)

/-- Witness for `splitMessage_spec`: the short side at a 5-character text,
the long side at 4001 repeated characters. -/
theorem splitMessage_spec_witness :
    (("hello".toList.length ≤ 4000 ∧ splitMessage "hello".toList 4000 = ["hello".toList]) ∧
     (4000 < (List.replicate 4001 'a').length ∧
      (∀ c ∈ splitMessage (List.replicate 4001 'a') 4000, c.length ≤ 4000) ∧
      SplitJoin (List.replicate 4001 'a') (splitMessage (List.replicate 4001 'a') 4000))) :=
  ⟨⟨by decide, (splitMessage_spec "hello".toList).1 (by decide)⟩,
   ⟨by rw [List.length_replicate]; norm_num,
    (splitMessage_spec (List.replicate 4001 'a')).2
      (by rw [List.length_replicate]; norm_num)⟩⟩

/-! ## C1 — totality of the hook and the outer catch -/

theorem hookAfterReady_caught (brCfg : BreakerCfg) (event : HookEvent) (aid : String)
    (br : BreakerState) (rl : RateState) (env : HookEnv)
    (h : ((hookAfterReady brCfg event aid br rl hookBaseEffects env).eff.caught).isSome) :
    (∃ m, (hookAfterReady brCfg event aid br rl hookBaseEffects env).eff.caught = some m ∧
      (hookAfterReady brCfg event aid br rl hookBaseEffects env).res =
        .reply (caughtMsg m) true) ∧
    (hookAfterReady brCfg event aid br rl hookBaseEffects env).eff.recordFailures = 1 ∧
    (hookAfterReady brCfg event aid br rl hookBaseEffects env).eff.recordSuccesses = 0 := by
  unfold hookAfterReady hookCatch at h ⊢
  rcases hx : env.xaddResult with a | m
  · rw [hx] at h
    dsimp only at h ⊢
    rcases hb : env.brpopResult with r | m2
    · rw [hb] at h
      rcases r with _ | raw
      · simp [hookBaseEffects] at h
      · dsimp only at h ⊢
        rcases hp : env.parse raw with _ | p
        · rw [hp] at h
          simp [hookBaseEffects] at h
        · rw [hp] at h
          dsimp only at h ⊢
          rcases hef : p.errorField with _ | e
          · rw [hef] at h
            simp [hookBaseEffects] at h
          · rw [hef] at h
            dsimp only at h ⊢
            by_cases he : e ≠ ""
            · rw [if_pos he] at h ⊢
              simp [hookBaseEffects] at h
            · rw [if_neg he] at h ⊢
              simp [hookBaseEffects] at h
    · simp [hookBaseEffects]
  · simp [hookBaseEffects]

theorem hookTry_caught (brCfg : BreakerCfg) (event : HookEvent) (aid : String)
    (br : BreakerState) (rl : RateState) (env : HookEnv)
    (h : ((hookTry brCfg event aid br rl hookBaseEffects env).eff.caught).isSome) :
    (∃ m, (hookTry brCfg event aid br rl hookBaseEffects env).eff.caught = some m ∧
      (hookTry brCfg event aid br rl hookBaseEffects env).res = .reply (caughtMsg m) true) ∧
    (hookTry brCfg event aid br rl hookBaseEffects env).eff.recordFailures = 1 ∧
    (hookTry brCfg event aid br rl hookBaseEffects env).eff.recordSuccesses = 0 := by
  unfold hookTry at h ⊢
  by_cases hr : env.redisReady = true
  · rw [if_pos hr] at h ⊢
    exact hookAfterReady_caught brCfg event aid br rl env h
  · rw [if_neg hr] at h ⊢
    rcases he : env.ensureResult with b | m
    · try rw [he] at h
      cases b
      · dsimp only at h ⊢
        simp [hookBaseEffects] at h
      · dsimp only at h ⊢
        exact hookAfterReady_caught brCfg event aid br rl env h
    · try rw [he] at h
      unfold hookCatch at h ⊢
      simp [hookBaseEffects]

/-- C1: whenever an invocation of the `before_reply` hook catches a thrown
exception (the oracle made an awaited platform call throw), the hook
returns the localized generic error reply with `isError: true`, with
exactly one breaker `recordFailure` (and no `recordSuccess`); no exception
propagates — the embedding is a total function by construction, mirroring
the outer `catch` around every fallible `await`. -/
theorem hook_total_spec (cfg : BridgeConfig) (rlCfg : RateLimiterConfig) (brCfg : BreakerCfg)
    (event : HookEvent) (agentId : Option String) (br : BreakerState) (rl : RateState)
    (env : HookEnv)
    (h : ((beforeReply cfg rlCfg brCfg event agentId br rl env).eff.caught).isSome) :
    (∃ m, (beforeReply cfg rlCfg brCfg event agentId br rl env).eff.caught = some m ∧
      (beforeReply cfg rlCfg brCfg event agentId br rl env).res = .reply (caughtMsg m) true) ∧
    (beforeReply cfg rlCfg brCfg event agentId br rl env).eff.recordFailures = 1 ∧
    (beforeReply cfg rlCfg brCfg event agentId br rl env).eff.recordSuccesses = 0 := by
  unfold beforeReply at h ⊢
  rcases agentId with _ | aid
  · simp [noHookEffects] at h
  · dsimp only at h ⊢
    cases hEA : isEngineAgent aid cfg
    · try rw [hEA] at h
      try rw [hEA]
      simp [noHookEffects] at h
    · try rw [hEA] at h
      try rw [hEA]
      simp only [Bool.not_true] at h ⊢
      rw [if_neg (by simp : ¬ (false = true))] at h ⊢
      cases hHB : (includesSub event.commandBody "HEARTBEAT_OK" ||
          includesSub event.commandBody "Read HEARTBEAT.md")
      · try rw [hHB] at h
        try rw [hHB]
        rw [if_neg (by simp : ¬ (false = true))] at h ⊢
        rcases hrl : rlCheck rlCfg rl aid env.now with ⟨o, rl1⟩
        try rw [hrl] at h
        try rw [hrl]
        rcases o with _ | msg
        · dsimp only at h ⊢
          cases hOx : isOpen brCfg br env.now
          · try rw [hOx] at h
            try rw [hOx]
            rw [if_neg (by simp : ¬ (false = true))] at h ⊢
            exact hookTry_caught brCfg event aid br (rlRecord rl1 aid env.now) env h
          · try rw [hOx] at h
            simp [hookBaseEffects] at h
        · simp [noHookEffects] at h
      · try rw [hHB] at h
        simp [noHookEffects] at h

/-- Witness for `hook_total_spec`: a concrete invocation whose `XADD`
throws. -/
theorem hook_total_spec_witness :
    ((beforeReply ⟨["a"], 120⟩ ⟨60, 20, "", 300⟩ defaultBreakerCfg
        ⟨"hi", none, none, none, none, none, none, none, none⟩ (some "a")
        ⟨0, 0⟩ ⟨[], [], 0⟩
        ⟨0, "cid", true, .ok true, .exc "boom", .ok none, fun _ => none⟩).eff.caught).isSome ∧
    (∃ m, (beforeReply ⟨["a"], 120⟩ ⟨60, 20, "", 300⟩ defaultBreakerCfg
        ⟨"hi", none, none, none, none, none, none, none, none⟩ (some "a")
        ⟨0, 0⟩ ⟨[], [], 0⟩
        ⟨0, "cid", true, .ok true, .exc "boom", .ok none, fun _ => none⟩).eff.caught = some m ∧
      (beforeReply ⟨["a"], 120⟩ ⟨60, 20, "", 300⟩ defaultBreakerCfg
        ⟨"hi", none, none, none, none, none, none, none, none⟩ (some "a")
        ⟨0, 0⟩ ⟨[], [], 0⟩
        ⟨0, "cid", true, .ok true, .exc "boom", .ok none, fun _ => none⟩).res =
          .reply (caughtMsg m) true) ∧
    (beforeReply ⟨["a"], 120⟩ ⟨60, 20, "", 300⟩ defaultBreakerCfg
        ⟨"hi", none, none, none, none, none, none, none, none⟩ (some "a")
        ⟨0, 0⟩ ⟨[], [], 0⟩
        ⟨0, "cid", true, .ok true, .exc "boom", .ok none, fun _ => none⟩).eff.recordFailures = 1 ∧
    (beforeReply ⟨["a"], 120⟩ ⟨60, 20, "", 300⟩ defaultBreakerCfg
        ⟨"hi", none, none, none, none, none, none, none, none⟩ (some "a")
        ⟨0, 0⟩ ⟨[], [], 0⟩
        ⟨0, "cid", true, .ok true, .exc "boom", .ok none, fun _ => none⟩).eff.recordSuccesses = 0 :=
  ⟨rfl, hook_total_spec ⟨["a"], 120⟩ ⟨60, 20, "", 300⟩ defaultBreakerCfg
      ⟨"hi", none, none, none, none, none, none, none, none⟩ (some "a")
      ⟨0, 0⟩ ⟨[], [], 0⟩
      ⟨0, "cid", true, .ok true, .exc "boom", .ok none, fun _ => none⟩ rfl⟩

/-! ## C5 — heartbeat shortcut -/

/-- C5: for a bridged agent whose command body contains `HEARTBEAT_OK` or
`Read HEARTBEAT.md`, the hook replies exactly `HEARTBEAT_OK` (not an
error), performs no broker operation, and neither charges nor even touches
the rate limiter state. -/
theorem heartbeat_spec (cfg : BridgeConfig) (rlCfg : RateLimiterConfig) (brCfg : BreakerCfg)
    (event : HookEvent) (aid : String) (br : BreakerState) (rl : RateState) (env : HookEnv)
    (hagent : isEngineAgent aid cfg = true)
    (hhb : includesSub event.commandBody "HEARTBEAT_OK" = true ∨
           includesSub event.commandBody "Read HEARTBEAT.md" = true) :
    (beforeReply cfg rlCfg brCfg event (some aid) br rl env).res =
      .reply "HEARTBEAT_OK" false ∧
    (beforeReply cfg rlCfg brCfg event (some aid) br rl env).eff.writes = [] ∧
    (beforeReply cfg rlCfg brCfg event (some aid) br rl env).eff.brpopCalls = 0 ∧
    (beforeReply cfg rlCfg brCfg event (some aid) br rl env).eff.rateRecorded = false ∧
    (beforeReply cfg rlCfg brCfg event (some aid) br rl env).rate = rl := by
  unfold beforeReply
  rcases hhb with h | h <;> simp [hagent, h, noHookEffects]

/-- Witness for `heartbeat_spec` at a concrete heartbeat invocation. -/
theorem heartbeat_spec_witness :
    isEngineAgent "a" ⟨["a"], 120⟩ = true ∧
    (beforeReply ⟨["a"], 120⟩ ⟨60, 20, "", 300⟩ defaultBreakerCfg
        ⟨"Read HEARTBEAT.md and reply", none, none, none, none, none, none, none, none⟩
        (some "a") ⟨0, 0⟩ ⟨[], [], 0⟩
        ⟨0, "cid", true, .ok true, .ok (), .ok none, fun _ => none⟩).res =
      .reply "HEARTBEAT_OK" false :=
  ⟨by decide,
   (heartbeat_spec ⟨["a"], 120⟩ ⟨60, 20, "", 300⟩ defaultBreakerCfg
      ⟨"Read HEARTBEAT.md and reply", none, none, none, none, none, none, none, none⟩
      "a" ⟨0, 0⟩ ⟨[], [], 0⟩
      ⟨0, "cid", true, .ok true, .ok (), .ok none, fun _ => none⟩
      (by decide) (Or.inr (by decide))).1⟩

/-! ## C6 — breaker gating of inbound requests -/

theorem foldl_recordFailure_below (brCfg : BreakerCfg) :
    ∀ (ts : List Nat) (b : BreakerState), b.openedAt = 0 →
      b.failures + ts.length < brCfg.threshold →
      ts.foldl (recordFailure brCfg) b = ⟨b.failures + ts.length, 0⟩ := by
  intro ts
  induction ts with
  | nil =>
    intro b h0 _
    cases b
    simp_all
  | cons τ rest ih =>
    intro b h0 hlt
    have hnotge : ¬ (b.failures + 1 ≥ brCfg.threshold) := by
      simp only [List.length_cons] at hlt
      omega
    have hrf : recordFailure brCfg b τ = ⟨b.failures + 1, 0⟩ := by
      unfold recordFailure
      dsimp only
      rw [if_neg hnotge, h0]
    rw [List.foldl_cons, hrf]
    have hstep := ih ⟨b.failures + 1, 0⟩ rfl
      (by dsimp only; simp only [List.length_cons] at hlt; omega)
    simp only [List.length_cons]
    rw [hstep]
    congr 1
    dsimp only
    omega

/-- `threshold` consecutive failures recorded from the reset state leave the
breaker at `failures = threshold` with `openedAt` stamped by the last
failure. -/
theorem breakerAfterFailures (brCfg : BreakerCfg) (ts : List Nat) (τ : Nat)
    (hlen : ts.length + 1 = brCfg.threshold) :
    (ts ++ [τ]).foldl (recordFailure brCfg) ⟨0, 0⟩ = ⟨brCfg.threshold, τ⟩ := by
  rw [List.foldl_append]
  rw [foldl_recordFailure_below brCfg ts ⟨0, 0⟩ rfl (by simp; omega)]
  simp only [List.foldl_cons, List.foldl_nil]
  unfold recordFailure
  dsimp only
  rw [if_pos (by omega : (0 : Nat) + ts.length + 1 ≥ brCfg.threshold)]
  congr 1
  omega

/-- C6 counterexample: with the default breaker open (five failures,
cooldown not elapsed), a heartbeat-bodied invocation on a bridged agent is
answered `HEARTBEAT_OK` with `isError` absent — not the claimed localized
error reply — and the breaker is never consulted, refuting "consulted at
the top of every inbound request" and "whenever open, the hook returns a
localized isError reply". -/
theorem breaker_gate_counterexample :
    getState defaultBreakerCfg ⟨5, 1000⟩ 1000 = .open ∧
    (beforeReply ⟨["a"], 120⟩ ⟨60, 20, "", 300⟩ defaultBreakerCfg
        ⟨"HEARTBEAT_OK", none, none, none, none, none, none, none, none⟩ (some "a")
        ⟨5, 1000⟩ ⟨[], [], 0⟩
        ⟨1000, "cid", true, .ok true, .ok (), .ok none, fun _ => none⟩).res =
      .reply "HEARTBEAT_OK" false ∧
    (beforeReply ⟨["a"], 120⟩ ⟨60, 20, "", 300⟩ defaultBreakerCfg
        ⟨"HEARTBEAT_OK", none, none, none, none, none, none, none, none⟩ (some "a")
        ⟨5, 1000⟩ ⟨[], [], 0⟩
        ⟨1000, "cid", true, .ok true, .ok (), .ok none, fun _ => none⟩).eff.breakerChecked =
      false :=
  ⟨by decide, by decide, by decide⟩

/-- C6 (amended): on every non-heartbeat invocation for a bridged agent, an
open breaker forces an `isError` reply with no broker operation; when the
rate limiter admits the request the reply is the breaker's localized
unavailability message and the breaker was consulted (before any broker
interaction); and after `threshold` consecutive failures from the reset
state the derived state stays `open` — so every such invocation
short-circuits — exactly until the cooldown measured from the last failure
has elapsed. -/
theorem breaker_gate_spec (cfg : BridgeConfig) (rlCfg : RateLimiterConfig) (brCfg : BreakerCfg)
    (event : HookEvent) (aid : String) (br : BreakerState) (rl : RateState) (env : HookEnv)
    (hagent : isEngineAgent aid cfg = true)
    (hhb1 : includesSub event.commandBody "HEARTBEAT_OK" = false)
    (hhb2 : includesSub event.commandBody "Read HEARTBEAT.md" = false) :
    (getState brCfg br env.now = .open →
      (beforeReply cfg rlCfg brCfg event (some aid) br rl env).eff.writes = [] ∧
      (beforeReply cfg rlCfg brCfg event (some aid) br rl env).eff.brpopCalls = 0 ∧
      ∃ t, (beforeReply cfg rlCfg brCfg event (some aid) br rl env).res = .reply t true) ∧
    (getState brCfg br env.now = .open → (rlCheck rlCfg rl aid env.now).1 = none →
      (beforeReply cfg rlCfg brCfg event (some aid) br rl env).res =
        .reply circuitOpenMsg true ∧
      (beforeReply cfg rlCfg brCfg event (some aid) br rl env).eff.breakerChecked = true) ∧
    (∀ (ts : List Nat) (τ : Nat), ts.length + 1 = brCfg.threshold →
      (((env.now : Int) - τ < brCfg.cooldownMs →
        getState brCfg ((ts ++ [τ]).foldl (recordFailure brCfg) ⟨0, 0⟩) env.now = .open) ∧
       ((env.now : Int) - τ ≥ brCfg.cooldownMs →
        getState brCfg ((ts ++ [τ]).foldl (recordFailure brCfg) ⟨0, 0⟩) env.now ≠ .open))) := by
  refine ⟨?_, ?_, ?_⟩
  · intro hopen
    have hio : isOpen brCfg br env.now = true := by simp [isOpen, hopen]
    unfold beforeReply
    simp only [hagent, Bool.not_true, hhb1, hhb2, Bool.or_self]
    rw [if_neg (by simp : ¬ (false = true)), if_neg (by simp : ¬ (false = true))]
    rcases hrl : rlCheck rlCfg rl aid env.now with ⟨o, rl1⟩
    try rw [hrl]
    rcases o with _ | msg
    · dsimp only
      rw [hio]
      rw [if_pos rfl]
      exact ⟨rfl, rfl, circuitOpenMsg, rfl⟩
    · exact ⟨rfl, rfl, msg, rfl⟩
  · intro hopen hnone
    have hio : isOpen brCfg br env.now = true := by simp [isOpen, hopen]
    unfold beforeReply
    simp only [hagent, Bool.not_true, hhb1, hhb2, Bool.or_self]
    rw [if_neg (by simp : ¬ (false = true)), if_neg (by simp : ¬ (false = true))]
    rcases hrl : rlCheck rlCfg rl aid env.now with ⟨o, rl1⟩
    rw [hrl] at hnone
    try rw [hrl]
    rcases o with _ | msg
    · dsimp only
      rw [hio]
      rw [if_pos rfl]
      exact ⟨rfl, rfl⟩
    · cases hnone
  · intro ts τ hlen
    rw [breakerAfterFailures brCfg ts τ hlen]
    constructor
    · intro hlt
      unfold getState
      rw [if_neg (by omega : ¬ brCfg.threshold < brCfg.threshold)]
      rw [if_neg (by dsimp only; omega)]
    · intro hge
      unfold getState
      rw [if_neg (by omega : ¬ brCfg.threshold < brCfg.threshold)]
      rw [if_pos (by dsimp only; omega)]
      simp

/-- Witness for `breaker_gate_spec`: a concrete open-breaker non-heartbeat
invocation is answered with the localized unavailability message, and five
consecutive failures at times 1..5 keep the default breaker open at time
6. -/
theorem breaker_gate_spec_witness :
    ((beforeReply ⟨["a"], 120⟩ ⟨60, 20, "", 300⟩ defaultBreakerCfg
        ⟨"hi", none, none, none, none, none, none, none, none⟩ (some "a")
        ⟨5, 1000⟩ ⟨[], [], 0⟩
        ⟨1000, "cid", true, .ok true, .ok (), .ok none, fun _ => none⟩).res =
      .reply circuitOpenMsg true) ∧
    getState defaultBreakerCfg
      (([1, 2, 3, 4] ++ [5]).foldl (recordFailure defaultBreakerCfg) ⟨0, 0⟩) 1000 = .open :=
  ⟨((breaker_gate_spec ⟨["a"], 120⟩ ⟨60, 20, "", 300⟩ defaultBreakerCfg
      ⟨"hi", none, none, none, none, none, none, none, none⟩ "a"
      ⟨5, 1000⟩ ⟨[], [], 0⟩
      ⟨1000, "cid", true, .ok true, .ok (), .ok none, fun _ => none⟩
      (by decide) (by decide) (by decide)).2.1 (by decide) (by decide)).1,
   ((breaker_gate_spec ⟨["a"], 120⟩ ⟨60, 20, "", 300⟩ defaultBreakerCfg
      ⟨"hi", none, none, none, none, none, none, none, none⟩ "a"
      ⟨5, 1000⟩ ⟨[], [], 0⟩
      ⟨1000, "cid", true, .ok true, .ok (), .ok none, fun _ => none⟩
      (by decide) (by decide) (by decide)).2.2 [1, 2, 3, 4] 5 (by decide)).1 (by decide)⟩

/-! ## C10 — response parsing of field-less JSON objects -/

/-- C10: when the popped rendezvous value parses to an object with neither
an `error` nor a `text` property, the hook records a breaker success and
replies (not an error) with the raw popped string itself; the tool returns
the raw string as its text content; and the plain-text fallback path —
taken exactly when `JSON.parse` throws — produces the same raw-string
reply. -/
theorem parse_fallback_spec (cfg : BridgeConfig) (rlCfg : RateLimiterConfig)
    (brCfg : BreakerCfg) (event : HookEvent) (aid : String) (br : BreakerState)
    (rl : RateState) (env : HookEnv) (raw : String)
    (hagent : isEngineAgent aid cfg = true)
    (hhb1 : includesSub event.commandBody "HEARTBEAT_OK" = false)
    (hhb2 : includesSub event.commandBody "Read HEARTBEAT.md" = false)
    (hrl : (rlCheck rlCfg rl aid env.now).1 = none)
    (hnotopen : isOpen brCfg br env.now = false)
    (hready : env.redisReady = true)
    (hxadd : env.xaddResult = .ok ())
    (hbrpop : env.brpopResult = .ok (some raw)) :
    (env.parse raw = some ⟨none, none⟩ →
      (beforeReply cfg rlCfg brCfg event (some aid) br rl env).res = .reply raw false ∧
      (beforeReply cfg rlCfg brCfg event (some aid) br rl env).eff.recordSuccesses = 1 ∧
      (beforeReply cfg rlCfg brCfg event (some aid) br rl env).breaker = recordSuccess br) ∧
    (env.parse raw = none →
      (beforeReply cfg rlCfg brCfg event (some aid) br rl env).res = .reply raw false ∧
      (beforeReply cfg rlCfg brCfg event (some aid) br rl env).eff.recordSuccesses = 1 ∧
      (beforeReply cfg rlCfg brCfg event (some aid) br rl env).breaker = recordSuccess br) ∧
    (∀ (tcfg : BridgeConfig) (ta tc : Option String) (msg : String) (tenv : ToolEnv),
      trimBoth msg.toList ≠ [] → tenv.xaddResult = .ok () → tenv.brpopResult = .ok (some raw) →
      (tenv.parse raw = some ⟨none, none⟩ →
        (toolExecute tcfg ta tc msg tenv).1 = .ok raw) ∧
      (tenv.parse raw = none →
        (toolExecute tcfg ta tc msg tenv).1 = .ok raw)) := by
  have hred : ∀ (pr : Option ParsedResp), env.parse raw = pr →
      (match pr with
        | none => (⟨none, some raw⟩ : ParsedResp)
        | some p => p).errorField = none →
      (match pr with
        | none => (⟨none, some raw⟩ : ParsedResp)
        | some p => p).textField.getD raw = raw →
      (beforeReply cfg rlCfg brCfg event (some aid) br rl env).res = .reply raw false ∧
      (beforeReply cfg rlCfg brCfg event (some aid) br rl env).eff.recordSuccesses = 1 ∧
      (beforeReply cfg rlCfg brCfg event (some aid) br rl env).breaker = recordSuccess br := by
    intro pr hpr hef htf
    unfold beforeReply
    simp only [hagent, Bool.not_true, hhb1, hhb2, Bool.or_self]
    rw [if_neg (by simp : ¬ (false = true)), if_neg (by simp : ¬ (false = true))]
    rcases hrlc : rlCheck rlCfg rl aid env.now with ⟨o, rl1⟩
    rw [hrlc] at hrl
    try rw [hrlc]
    rcases o with _ | msg
    · dsimp only
      rw [hnotopen]
      rw [if_neg (by simp : ¬ (false = true))]
      unfold hookTry
      rw [if_pos hready]
      unfold hookAfterReady
      rw [hxadd]
      dsimp only
      rw [hbrpop]
      dsimp only
      rw [hpr]
      rw [hef]
      dsimp only
      rw [htf]
      exact ⟨rfl, rfl, rfl⟩
    · cases hrl
  refine ⟨?_, ?_, ?_⟩
  · intro hp
    exact hred _ hp rfl rfl
  · intro hp
    exact hred _ hp rfl rfl
  · intro tcfg ta tc msg tenv htm htx htb
    have tred : ∀ (pr : Option ParsedResp), tenv.parse raw = pr →
        (match pr with
          | none => (⟨none, some raw⟩ : ParsedResp)
          | some p => p).errorField = none →
        (match pr with
          | none => (⟨none, some raw⟩ : ParsedResp)
          | some p => p).textField.getD raw = raw →
        (toolExecute tcfg ta tc msg tenv).1 = .ok raw := by
      intro pr hpr hef htf
      unfold toolExecute
      rw [if_neg htm]
      rw [htx]
      dsimp only
      rw [htb]
      dsimp only
      rw [hpr]
      rw [hef]
      dsimp only
      rw [htf]
    exact ⟨fun hp => tred _ hp rfl rfl, fun hp => tred _ hp rfl rfl⟩

/-- Witness for `parse_fallback_spec`: a concrete invocation whose popped
value is the two-character string `\x7b\x7d` (an empty JSON object), with a
parse oracle yielding an object with no fields: the reply text is the raw
string itself and a success is recorded. -/
theorem parse_fallback_spec_witness :
    (beforeReply ⟨["a"], 120⟩ ⟨60, 20, "", 300⟩ defaultBreakerCfg
        ⟨"hi", none, none, none, none, none, none, none, none⟩ (some "a")
        ⟨0, 0⟩ ⟨[], [], 0⟩
        ⟨0, "cid", true, .ok true, .ok (), .ok (some "\x7b\x7d"),
         fun _ => some ⟨none, none⟩⟩).res = .reply "\x7b\x7d" false ∧
    (beforeReply ⟨["a"], 120⟩ ⟨60, 20, "", 300⟩ defaultBreakerCfg
        ⟨"hi", none, none, none, none, none, none, none, none⟩ (some "a")
        ⟨0, 0⟩ ⟨[], [], 0⟩
        ⟨0, "cid", true, .ok true, .ok (), .ok (some "\x7b\x7d"),
         fun _ => some ⟨none, none⟩⟩).eff.recordSuccesses = 1 :=
  ⟨((parse_fallback_spec ⟨["a"], 120⟩ ⟨60, 20, "", 300⟩ defaultBreakerCfg
      ⟨"hi", none, none, none, none, none, none, none, none⟩ "a" ⟨0, 0⟩ ⟨[], [], 0⟩
      ⟨0, "cid", true, .ok true, .ok (), .ok (some "\x7b\x7d"), fun _ => some ⟨none, none⟩⟩
      "\x7b\x7d" (by decide) (by decide) (by decide) (by decide) (by decide) rfl rfl
      rfl).1 rfl).1,
   ((parse_fallback_spec ⟨["a"], 120⟩ ⟨60, 20, "", 300⟩ defaultBreakerCfg
      ⟨"hi", none, none, none, none, none, none, none, none⟩ "a" ⟨0, 0⟩ ⟨[], [], 0⟩
      ⟨0, "cid", true, .ok true, .ok (), .ok (some "\x7b\x7d"), fun _ => some ⟨none, none⟩⟩
      "\x7b\x7d" (by decide) (by decide) (by decide) (by decide) (by decide) rfl rfl
      rfl).1 rfl).2.1⟩

/-! ## C7 — client assignment of broker operations -/

/-- C7 counterexample: the tool's rendezvous `BRPOP` and the worker's
`XREADGROUP` are blocking reads issued on the normal client, refuting
"every blocking read is issued on the dedicated blocking client". -/
theorem client_wiring_counterexample :
    isBlockingOp .toolBrpop = true ∧ clientOf .toolBrpop = .normal ∧
    isBlockingOp .workerXreadgroup = true ∧ clientOf .workerXreadgroup = .normal := by
  decide

/-- C7 (amended): the hook's rendezvous `BRPOP` is the only operation on
the dedicated blocking client (so everything on that client is a blocking
read), while the tool's `BRPOP`, the worker's `XREADGROUP`, and all
appends, acks, pending-list inspections and group creation go through the
normal client. -/
theorem client_wiring_spec :
    clientOf .hookBrpop = .blocking ∧
    (∀ op, clientOf op = .blocking → isBlockingOp op = true) ∧
    clientOf .toolBrpop = .normal ∧
    clientOf .workerXreadgroup = .normal ∧
    clientOf .hookXadd = .normal ∧
    clientOf .toolXadd = .normal ∧
    clientOf .workerXack = .normal ∧
    clientOf .workerXpending = .normal ∧
    clientOf .workerXgroupCreate = .normal := by
  refine ⟨rfl, ?_, rfl, rfl, rfl, rfl, rfl, rfl, rfl⟩
  intro op hop
  cases op <;> simp_all [clientOf, isBlockingOp]

/-- Witness for `client_wiring_spec` (its quantified conjunct has a
hypothesis): instantiated at the hook's `BRPOP`. -/
theorem client_wiring_spec_witness :
    clientOf .hookBrpop = .blocking ∧ isBlockingOp .hookBrpop = true :=
  ⟨rfl, client_wiring_spec.2.1 .hookBrpop rfl⟩

/-! ## C8 — mandatory fields of `bridge:inbound` appends -/

/-- The mandatory field set named by the data-model invariant. -/
def mandatoryInboundKeys : List String :=
  ["correlationId", "message", "from", "agent", "channel", "accountId",
   "sessionKey", "timestamp", "protocolVersion"]

theorem hookAfterReady_writes (brCfg : BreakerCfg) (event : HookEvent) (aid : String)
    (br : BreakerState) (rl : RateState) (eff : HookEffects) (env : HookEnv) :
    (hookAfterReady brCfg event aid br rl eff env).eff.writes =
      eff.writes ++ [hookXaddFields event aid env.correlationId env.now] := by
  unfold hookAfterReady hookCatch
  repeat' split
  all_goals (try rfl)
  all_goals dsimp only
  all_goals repeat' split
  all_goals rfl

theorem hookTry_writes (brCfg : BreakerCfg) (event : HookEvent) (aid : String)
    (br : BreakerState) (rl : RateState) (eff : HookEffects) (env : HookEnv) :
    (hookTry brCfg event aid br rl eff env).eff.writes = eff.writes ∨
    (hookTry brCfg event aid br rl eff env).eff.writes =
      eff.writes ++ [hookXaddFields event aid env.correlationId env.now] := by
  unfold hookTry hookCatch
  split
  · exact Or.inr (hookAfterReady_writes brCfg event aid br rl eff env)
  · split
    · exact Or.inl rfl
    · exact Or.inl rfl
    · exact Or.inr (hookAfterReady_writes brCfg event aid br rl eff env)

theorem beforeReply_writes (cfg : BridgeConfig) (rlCfg : RateLimiterConfig)
    (brCfg : BreakerCfg) (event : HookEvent) (agentId : Option String)
    (br : BreakerState) (rl : RateState) (env : HookEnv) :
    ∀ w ∈ (beforeReply cfg rlCfg brCfg event agentId br rl env).eff.writes,
      ∃ a, agentId = some a ∧ w = hookXaddFields event a env.correlationId env.now := by
  unfold beforeReply
  rcases agentId with _ | aid
  · simp [noHookEffects]
  · dsimp only
    cases hEA : isEngineAgent aid cfg
    · simp [noHookEffects]
    · rw [if_neg (by simp : ¬ ((!true) = true))]
      cases hHB : (includesSub event.commandBody "HEARTBEAT_OK" ||
          includesSub event.commandBody "Read HEARTBEAT.md")
      · rw [if_neg (by simp : ¬ (false = true))]
        rcases hrl : rlCheck rlCfg rl aid env.now with ⟨o, rl1⟩
        rcases o with _ | msg
        · dsimp only
          cases hOx : isOpen brCfg br env.now
          · rw [if_neg (by simp : ¬ (false = true))]
            intro w hw
            rcases hookTry_writes brCfg event aid br (rlRecord rl1 aid env.now)
                hookBaseEffects env with hcase | hcase
            · rw [hcase] at hw
              simp [hookBaseEffects] at hw
            · rw [hcase] at hw
              simp [hookBaseEffects] at hw
              exact ⟨aid, rfl, hw⟩
          · rw [if_pos rfl]
            simp [hookBaseEffects]
        · simp [noHookEffects]
      · rw [if_pos rfl]
        simp [noHookEffects]

theorem toolExecute_writes (cfg : BridgeConfig) (ta tc : Option String) (msg : String)
    (env : ToolEnv) :
    ∀ w ∈ (toolExecute cfg ta tc msg env).2.writes,
      w = toolXaddFields env.correlationId msg (ta.getD "unknown") (tc.getD "unknown")
            env.now := by
  unfold toolExecute
  repeat' split
  all_goals (try simp)
  all_goals repeat' split
  all_goals simp

/-- C8 counterexample: a concrete `redis_bridge` tool invocation appends an
entry whose field set omits `accountId`, `sessionKey` and
`protocolVersion`, refuting "every append includes the full mandatory
set". -/
theorem inbound_fields_counterexample :
    (toolExecute ⟨["a"], 120⟩ (some "a") (some "tg") "hi"
        ⟨7, "cid", .ok (), .ok (some "R"), fun _ => none⟩).2.writes =
      [toolXaddFields "cid" "hi" "a" "tg" 7] ∧
    "accountId" ∈ mandatoryInboundKeys ∧
    ¬ "accountId" ∈ (toolXaddFields "cid" "hi" "a" "tg" 7).map Prod.fst ∧
    ¬ "sessionKey" ∈ (toolXaddFields "cid" "hi" "a" "tg" 7).map Prod.fst ∧
    ¬ "protocolVersion" ∈ (toolXaddFields "cid" "hi" "a" "tg" 7).map Prod.fst := by
  refine ⟨by decide, by decide, by decide, by decide, by decide⟩

/-- C8 (amended): every append issued by the `before_reply` hook carries
all nine mandatory fields; every append issued by the tool carries exactly
the six fields `correlationId, message, from, agent, channel, timestamp`,
with `from = "proxy"`. -/
theorem inbound_fields_spec (cfg : BridgeConfig) (rlCfg : RateLimiterConfig)
    (brCfg : BreakerCfg) (event : HookEvent) (agentId : Option String)
    (br : BreakerState) (rl : RateState) (env : HookEnv)
    (tcfg : BridgeConfig) (ta tc : Option String) (msg : String) (tenv : ToolEnv) :
    (∀ w ∈ (beforeReply cfg rlCfg brCfg event agentId br rl env).eff.writes,
      ∀ k ∈ mandatoryInboundKeys, k ∈ w.map Prod.fst) ∧
    (∀ w ∈ (toolExecute tcfg ta tc msg tenv).2.writes,
      w.map Prod.fst = ["correlationId", "message", "from", "agent", "channel", "timestamp"] ∧
      ("from", "proxy") ∈ w) := by
  constructor
  · intro w hw k hk
    obtain ⟨a, -, rfl⟩ := beforeReply_writes cfg rlCfg brCfg event agentId br rl env w hw
    simp only [mandatoryInboundKeys, List.mem_cons, List.not_mem_nil, or_false] at hk
    unfold hookXaddFields
    rcases hk with rfl | rfl | rfl | rfl | rfl | rfl | rfl | rfl | rfl <;> simp
  · intro w hw
    rw [toolExecute_writes tcfg ta tc msg tenv w hw]
    unfold toolXaddFields
    exact ⟨rfl, by simp⟩

/-- Witness for `inbound_fields_spec` at a concrete hook invocation and a
concrete tool invocation. -/
theorem inbound_fields_spec_witness :
    ((beforeReply ⟨["a"], 120⟩ ⟨60, 20, "", 300⟩ defaultBreakerCfg
        ⟨"hi", none, none, none, none, none, none, none, none⟩ (some "a")
        ⟨0, 0⟩ ⟨[], [], 0⟩
        ⟨0, "cid", true, .ok true, .ok (), .ok none, fun _ => none⟩).eff.writes =
      [hookXaddFields ⟨"hi", none, none, none, none, none, none, none, none⟩ "a" "cid" 0]) ∧
    ("accountId" ∈
      (hookXaddFields ⟨"hi", none, none, none, none, none, none, none, none⟩
        "a" "cid" 0).map Prod.fst) ∧
    (("from", "proxy") ∈ toolXaddFields "cid" "hi" "a" "tg" 7) :=
  ⟨by decide,
   (inbound_fields_spec ⟨["a"], 120⟩ ⟨60, 20, "", 300⟩ defaultBreakerCfg
      ⟨"hi", none, none, none, none, none, none, none, none⟩ (some "a")
      ⟨0, 0⟩ ⟨[], [], 0⟩ ⟨0, "cid", true, .ok true, .ok (), .ok none, fun _ => none⟩
      ⟨["a"], 120⟩ (some "a") (some "tg") "hi"
      ⟨7, "cid", .ok (), .ok (some "R"), fun _ => none⟩).1
     (hookXaddFields ⟨"hi", none, none, none, none, none, none, none, none⟩ "a" "cid" 0)
     (by decide) "accountId" (by decide),
   ((inbound_fields_spec ⟨["a"], 120⟩ ⟨60, 20, "", 300⟩ defaultBreakerCfg
      ⟨"hi", none, none, none, none, none, none, none, none⟩ (some "a")
      ⟨0, 0⟩ ⟨[], [], 0⟩ ⟨0, "cid", true, .ok true, .ok (), .ok none, fun _ => none⟩
      ⟨["a"], 120⟩ (some "a") (some "tg") "hi"
      ⟨7, "cid", .ok (), .ok (some "R"), fun _ => none⟩).2
     (toolXaddFields "cid" "hi" "a" "tg" 7) (by decide)).2⟩

/-! ## C9 — dead-letter check of the outbound worker -/

theorem splitGo_ne_nil (maxLen fuel : Nat) (remaining : List Char)
    (hgt : ¬ remaining.length ≤ maxLen) :
    splitGo maxLen (fuel + 1) remaining ≠ [] := by
  unfold splitGo
  rw [if_neg hgt]
  dsimp only
  repeat' split
  all_goals simp

theorem splitMessage_ne_nil (text : List Char) (maxLen : Nat) :
    splitMessage text maxLen ≠ [] := by
  unfold splitMessage
  split
  · simp
  · rename_i hgt
    rcases hL : text.length with _ | n
    · exact absurd (by omega : text.length ≤ maxLen) hgt
    · exact splitGo_ne_nil maxLen n text hgt

theorem deliverChunks_pos (ok : Nat → Bool) (c : List Char) (cs : List (List Char)) (k : Nat) :
    (deliverChunks ok (c :: cs) k).1 ≥ 1 := by
  unfold deliverChunks
  split <;> simp

theorem entryDeliver_effects (cfg : ListenerCfg) (msg0 : String) (env : EntryEnv)
    (acks0 : Nat) (dead : Bool) :
    (entryDeliver cfg msg0 env acks0 dead).2.deadLettered = dead ∧
    (entryDeliver cfg msg0 env acks0 dead).2.cliCalls ≥ 1 ∧
    (entryDeliver cfg msg0 env acks0 dead).1 = .ok () := by
  unfold entryDeliver
  dsimp only
  rcases hc : splitMessage (entryMessageToSend cfg msg0 env.publishResult).toList MAX_MSG_LEN
      with _ | ⟨c, cs⟩
  · exact absurd hc (splitMessage_ne_nil _ _)
  · have hpos := deliverChunks_pos env.cliOk c cs 0
    split
    · rcases env.ackFinal with a | m <;> exact ⟨rfl, hpos, rfl⟩
    · exact ⟨rfl, hpos, rfl⟩

/-- C9: for a well-formed outbound entry whose pending inspection reports a
delivery count exceeding 5 (and whose acknowledgement goes through),
`processEntry` issues exactly one ack, logs the dead-letter error, and
performs no CLI invocation; and when the pending inspection throws, the
call behaves exactly as if the inspection had reported nothing pending — no
dead-letter, with delivery proceeding through at least one CLI
invocation. -/
theorem processEntry_deadletter_spec (cfg : ListenerCfg) (fields : List String)
    (env : EntryEnv) (dc : Nat) (m : String)
    (hmsg : truthyStr (getField fields "message") = true)
    (hto : truthyStr (getField fields "to") = true)
    (hch : truthyStr (getField fields "channel") = true) :
    (env.xpendingResult = .ok (some dc) → dc > 5 → env.ackDead = .ok () →
      processEntry cfg fields env = (.ok (), ⟨1, 0, false, true⟩)) ∧
    (processEntry cfg fields { env with xpendingResult := .exc m } =
      processEntry cfg fields { env with xpendingResult := .ok none }) ∧
    (env.xpendingResult = .exc m →
      (processEntry cfg fields env).2.deadLettered = false ∧
      (processEntry cfg fields env).2.cliCalls ≥ 1 ∧
      (processEntry cfg fields env).1 = .ok ()) := by
  have hguard : (!truthyStr (getField fields "message") ||
      !truthyStr (getField fields "to") || !truthyStr (getField fields "channel")) = false := by
    rw [hmsg, hto, hch]
    rfl
  refine ⟨?_, ?_, ?_⟩
  · intro hxp hdc hack
    unfold processEntry
    dsimp only
    rw [hguard]
    rw [if_neg (by simp : ¬ (false = true))]
    rw [hxp]
    dsimp only
    rw [if_pos (by unfold DEAD_LETTER_MAX_RETRIES; omega : dc > DEAD_LETTER_MAX_RETRIES), hack]
  · rfl
  · intro hxp
    unfold processEntry
    dsimp only
    rw [hguard]
    rw [if_neg (by simp : ¬ (false = true))]
    rw [hxp]
    dsimp only
    obtain ⟨h1, h2, h3⟩ := entryDeliver_effects cfg ((getField fields "message").getD "") env 0 false
    exact ⟨h1, h2, h3⟩

/-- Witness for `processEntry_deadletter_spec`: a concrete well-formed
entry with reported delivery count 6 is acked once, dead-lettered, and
delivered to no CLI call; the same entry with a throwing inspection
delivers normally. -/
theorem processEntry_deadletter_spec_witness :
    processEntry ⟨"g", "", "", ""⟩ ["message", "mm", "to", "tt", "channel", "cc"]
      ⟨.ok (some 6), .ok (), .ok (), .ok (), none, fun _ => true⟩ =
      (.ok (), ⟨1, 0, false, true⟩) ∧
    (processEntry ⟨"g", "", "", ""⟩ ["message", "mm", "to", "tt", "channel", "cc"]
      ⟨.exc "boom", .ok (), .ok (), .ok (), none, fun _ => true⟩).2.cliCalls ≥ 1 :=
  ⟨(processEntry_deadletter_spec ⟨"g", "", "", ""⟩
      ["message", "mm", "to", "tt", "channel", "cc"]
      ⟨.ok (some 6), .ok (), .ok (), .ok (), none, fun _ => true⟩ 6 "boom"
      (by decide) (by decide) (by decide)).1 rfl (by decide) rfl,
   ((processEntry_deadletter_spec ⟨"g", "", "", ""⟩
      ["message", "mm", "to", "tt", "channel", "cc"]
      ⟨.exc "boom", .ok (), .ok (), .ok (), none, fun _ => true⟩ 6 "boom"
      (by decide) (by decide) (by decide)).2.2 rfl).2.1⟩

end RedisBridge
